import Mathlib

/-!
Shallow embedding of the `validate` Go library (package `validate`).

The repository contains four revisions of the package in one source file.
Each revision is embedded separately, with a suffix naming the revision:

* Revision A (struct validators `Min/Max/OneOf/Before/After` with a `Name`
  field, `ValidationError` with the bracketed grammar
  `validate: N errors: [...]`, `All(vs ...Validatable)` evaluating each
  element once).
* Revision B (free functions `Min/Max/Before/After/OneOf` returning `error`,
  `errSingle`/`errOneOf` failure structs, `All(vs ...error)`).
* Revision C (struct validators without `Name`, `MinMax`, flat `;`-joined
  `ValidationError` grammar, `All(vs ...Validatable)` whose loop body calls
  `f.Validate()` twice on a failing element).
* Revision D (`errMultiple` as a slice type, same free functions as B).

Go `error` interface values are embedded as inductive error trees whose
leaves carry the structured failure data (or, for arbitrary foreign errors,
their rendered message); `nil` results are `Option.none`.  Generic
`constraints.Ordered` type parameters become a `LinearOrder` instance,
`comparable` becomes `DecidableEq`, and `time.Time` instants are embedded as
integers with `Before`/`After` the strict order on instants.
-/

/-! ### Revision A: error model and aggregator -/

/-- An `error` value in revision A: either an arbitrary error rendering to a
fixed message (`leaf`), or a `ValidationError{Errors: errs}` aggregate. -/
inductive ErrA : Type where
  | leaf (msg : String)
  | validationError (errs : List ErrA)

mutual

/-- `Error()` of revision A: a `ValidationError` renders as
`"validate: " + itoa(len(Errors)) + " errors: [" + strings.Join(msgs, "; ") + "]"`;
a leaf error renders as its own message. -/
def renderA : ErrA → String
  | .leaf msg => msg
  | .validationError errs =>
      "validate: " ++ toString errs.length ++ " errors: ["
        ++ String.intercalate "; " (renderListA errs) ++ "]"

/-- The `msg` slice built by `ValidationError.Error`: each child error's
`Error()` in order. -/
def renderListA : List ErrA → List String
  | [] => []
  | e :: es => renderA e :: renderListA es

end

mutual

/-- Depth of a failure tree: a leaf violation has depth 0, a
`ValidationError` has depth one more than its deepest child. -/
def depthA : ErrA → Nat
  | .leaf _ => 0
  | .validationError errs => depthListA errs + 1

/-- Maximum depth of a list of failure trees. -/
def depthListA : List ErrA → Nat
  | [] => 0
  | e :: es => max (depthA e) (depthListA es)

end

/-- The `errs` slice built by the `All` loop (revisions A, B and D share this
loop): start from `nil` and append every non-nil result in order. -/
def collectErrs {α : Type} : List (Option α) → List α
  | [] => []
  | none :: rest => collectErrs rest
  | some e :: rest => e :: collectErrs rest

/-- `All(vs ...Validatable)` of revision A.  A `Validatable` is characterised
by the result of its (pure, deterministic) `Validate()` call, so the argument
list carries those results in supplied order.  If any are non-nil, the
non-nil ones are wrapped in a `ValidationError`; otherwise the result is nil. -/
def AllA (vs : List (Option ErrA)) : Option ErrA :=
  match collectErrs vs with
  | [] => none
  | e :: es => some (.validationError (e :: es))

/-- The body of `ValidationError.Error` (revision A) applied to the receiver's
`Errors` field. -/
def renderValidationErrorA (errs : List ErrA) : String :=
  "validate: " ++ toString errs.length ++ " errors: ["
    ++ String.intercalate "; " (renderListA errs) ++ "]"

/-- A call of `ValidationError.Error`: the method has a value receiver and
assigns no field, so the call returns the rendered string and leaves the
receiver's `Errors` exactly as it was. -/
def ValidationErrorErrorCall (errs : List ErrA) : String × List ErrA :=
  (renderValidationErrorA errs, errs)

/-! ### Revision B: free validator functions -/

/-- The `errSingle[T]` failure struct of revisions B and D. -/
structure ErrSingle (T : Type) where
  Name : String
  Val : T
  To : T
  Op : String
deriving DecidableEq

/-- `errSingle[T].Error()`: `fmt.Sprintf("%s(%v) %s (%v)", Name, Val, Op, To)`. -/
def errSingleError {T : Type} [ToString T] (e : ErrSingle T) : String :=
  e.Name ++ "(" ++ toString e.Val ++ ") " ++ e.Op ++ " (" ++ toString e.To ++ ")"

/-- A call of `errSingle.Error`: value receiver, no field assignment, so the
receiver comes back unchanged alongside the rendered string. -/
def errSingleErrorCall {T : Type} [ToString T] (e : ErrSingle T) : String × ErrSingle T :=
  (errSingleError e, e)

/-- `Min` of revision B: `if v > min { return nil }`, else an `errSingle` with
operator text `"smaller than min"`. -/
def MinB {T : Type} [LinearOrder T] (name : String) (v min : T) : Option (ErrSingle T) :=
  if v > min then none else some ⟨name, v, min, "smaller than min"⟩

/-- `Max` of revision B: `if v < max { return nil }`, else an `errSingle` with
operator text `"higher than max"`. -/
def MaxB {T : Type} [LinearOrder T] (name : String) (v mx : T) : Option (ErrSingle T) :=
  if v < mx then none else some ⟨name, v, mx, "higher than max"⟩

/-- `Before` of revision B over `time.Time` instants (embedded as integers,
`t.Before(u)` iff `t < u`): nil when `t` is strictly before the reference. -/
def BeforeB (name : String) (t ref : Int) : Option (ErrSingle Int) :=
  if t < ref then none else some ⟨name, t, ref, "is not before"⟩

/-- `After` of revision B over `time.Time` instants (embedded as integers,
`t.After(u)` iff `t > u`): nil when `t` is strictly after the reference. -/
def AfterB (name : String) (t ref : Int) : Option (ErrSingle Int) :=
  if t > ref then none else some ⟨name, t, ref, "is not after"⟩

/-- The `errOneOf[T]` failure struct of revisions B and D; it retains the
full `options` slice it was given. -/
structure ErrOneOf (T : Type) where
  Name : String
  Val : T
  Options : List T
deriving DecidableEq

/-- The scan loop shared by both `OneOf` variants: walk the options left to
right and stop at the first element equal to `v`. -/
def oneOfFound {T : Type} [DecidableEq T] (v : T) : List T → Bool
  | [] => false
  | q :: rest => if v = q then true else oneOfFound v rest

/-- `OneOf` of revision B: return nil at the first option equal to `v`,
otherwise an `errOneOf` carrying the whole `options` slice verbatim. -/
def OneOfB {T : Type} [DecidableEq T] (name : String) (v : T) (options : List T) :
    Option (ErrOneOf T) :=
  if oneOfFound v options then none else some ⟨name, v, options⟩

/-- The `OneOf[T]` validator struct of revision A. -/
structure OneOfA (T : Type) where
  Name : String
  Value : T
  Values : List T
deriving DecidableEq

/-- `OneOf[T].Validate` of revision A: scan `Values` for `Value`; on no match
the struct itself is returned as the error. -/
def OneOfAValidate {T : Type} [DecidableEq T] (s : OneOfA T) : Option (OneOfA T) :=
  if oneOfFound s.Value s.Values then none else some s

/-! ### Revision C: flat grammar, `MinMax`, double-validating aggregator -/

/-- An `error` value in revision C: the `Min[T]`/`Max[T]` validator structs
returned as their own errors, an arbitrary foreign error, or a
`ValidationError` aggregate. -/
inductive ErrC (T : Type) : Type where
  | minErr (value mn : T)
  | maxErr (value mx : T)
  | leaf (msg : String)
  | validationError (errs : List (ErrC T))

/-- `Min[T].Validate` of revision C: fails (returning the struct) iff
`Value < Min`. -/
def MinValidateC {T : Type} [LinearOrder T] (value mn : T) : Option (ErrC T) :=
  if value < mn then some (.minErr value mn) else none

/-- `Max[T].Validate` of revision C: fails (returning the struct) iff
`Value > Max`. -/
def MaxValidateC {T : Type} [LinearOrder T] (value mx : T) : Option (ErrC T) :=
  if value > mx then some (.maxErr value mx) else none

/-- The loop of `All` in revision C.  Its body is
`if err := f.Validate(); err != nil { errs = append(errs, f.Validate()) }`:
`f.Validate()` is evaluated once in the condition and, when the result is
non-nil, a second time inside the `append`.  `Validate` is pure and
deterministic (§4.1 of the spec), so both evaluations return the same value;
the second component records, per element in order, how many times that
element's `Validate` was evaluated. -/
def AllCLoop {T : Type} (vs : List (Option (ErrC T))) : List (ErrC T) × List Nat :=
  match vs with
  | [] => ([], [])
  | none :: rest =>
      let r := AllCLoop rest
      (r.1, 1 :: r.2)
  | some e :: rest =>
      let r := AllCLoop rest
      (e :: r.1, 2 :: r.2)

/-- `All(vs ...Validatable)` of revision C: wrap the collected errors in a
`ValidationError` when any element failed, otherwise nil. -/
def AllC {T : Type} (vs : List (Option (ErrC T))) : Option (ErrC T) :=
  match (AllCLoop vs).1 with
  | [] => none
  | e :: es => some (.validationError (e :: es))

/-- Per-element count of `Validate` evaluations performed by revision C's
`All` on the given elements. -/
def AllCCounts {T : Type} (vs : List (Option (ErrC T))) : List Nat :=
  (AllCLoop vs).2

/-- `MinMax[T].Validate` of revision C: `All(Max{Value, Max}, Min{Value, Min})`
— the aggregate of the Max check followed by the Min check. -/
def MinMaxValidateC {T : Type} [LinearOrder T] (value mn mx : T) : Option (ErrC T) :=
  AllC [MaxValidateC value mx, MinValidateC value mn]

mutual

/-- `Error()` of revision C (instantiated at integer values): `Min` renders as
`"(%v) smaller than min (%v)"`, `Max` as `"(%v) higher than max (%v)"`, a
foreign error as its message, and `ValidationError` returns `""` when its
`Errors` slice is empty and otherwise the children's messages joined by `";"`. -/
def renderC : ErrC Int → String
  | .minErr value mn => "(" ++ toString value ++ ") smaller than min (" ++ toString mn ++ ")"
  | .maxErr value mx => "(" ++ toString value ++ ") higher than max (" ++ toString mx ++ ")"
  | .leaf msg => msg
  | .validationError errs =>
      if errs.length = 0 then "" else String.intercalate ";" (renderListC errs)

/-- The `msg` slice built by revision C's `ValidationError.Error`. -/
def renderListC : List (ErrC Int) → List String
  | [] => []
  | e :: es => renderC e :: renderListC es

end

/-! ### Revision D: `errMultiple` slice aggregator -/

/-- An `error` value in revision D: an arbitrary error or an `errMultiple`
slice of errors. -/
inductive ErrD : Type where
  | leaf (msg : String)
  | errMultiple (errs : List ErrD)

/-- `All(vs ...error)` of revision D: append every non-nil argument in order;
wrap them in `errMultiple` when any exist, else nil. -/
def AllD (vs : List (Option ErrD)) : Option ErrD :=
  match collectErrs vs with
  | [] => none
  | e :: es => some (.errMultiple (e :: es))

/-! ### Helper lemmas -/

theorem collectErrs_eq_filterMap {α : Type} (vs : List (Option α)) :
    collectErrs vs = vs.filterMap id := by
  induction vs with
  | nil => rfl
  | cons v rest ih => cases v <;> simp [collectErrs, ih]

theorem collectErrs_append {α : Type} (xs ys : List (Option α)) :
    collectErrs (xs ++ ys) = collectErrs xs ++ collectErrs ys := by
  induction xs with
  | nil => rfl
  | cons v rest ih => cases v <;> simp [collectErrs, ih]

theorem AllA_eq (vs : List (Option ErrA)) :
    AllA vs = if (collectErrs vs).isEmpty then none
      else some (ErrA.validationError (collectErrs vs)) := by
  unfold AllA
  cases h : collectErrs vs <;> simp

theorem AllD_eq (vs : List (Option ErrD)) :
    AllD vs = if (collectErrs vs).isEmpty then none
      else some (ErrD.errMultiple (collectErrs vs)) := by
  unfold AllD
  cases h : collectErrs vs <;> simp

theorem renderListC_eq_map (es : List (ErrC Int)) :
    renderListC es = es.map renderC := by
  induction es with
  | nil => simp [renderListC]
  | cons e rest ih => simp [renderListC, ih]

theorem oneOfFound_iff_mem {T : Type} [DecidableEq T] (v : T) (l : List T) :
    oneOfFound v l = true ↔ v ∈ l := by
  induction l with
  | nil => simp [oneOfFound]
  | cons q rest ih =>
      by_cases h : v = q <;> simp [oneOfFound, h, ih]

/-! ### Claim theorems -/

/-- C1: the claim states that `Min` fails iff `v < bound` and `Max` fails iff
`v > bound`, a value equal to the bound passing both.  The cited revision B
functions instead pass `Min` only when `v > min` and `Max` only when
`v < max`, so a value exactly equal to the bound FAILS both checks: at the
claim's own boundary scenario (value = bound, here `123456 = 123456` and
`10 = 10` over the ordered instance on integers) both functions return a
violation instead of nil. -/
theorem minB_maxB_fail_at_equal_bound :
    MaxB "salary" (123456 : Int) 123456
      = some ⟨"salary", 123456, 123456, "higher than max"⟩
    ∧ MinB "age" (10 : Int) 10 = some ⟨"age", 10, 10, "smaller than min"⟩ := by
  constructor <;> decide

/-- C2: the claim states every element's `Validate` is evaluated exactly once
per `All` invocation.  In the cited revision C loop a failing element's
`Validate()` is evaluated twice (once in the `if` condition, once inside
`append`): with a single failing check the per-element evaluation count is 2,
while a passing check is evaluated once; the collected error is the value the
second evaluation returned. -/
theorem allC_double_validates_failing_elements :
    AllCCounts [some (ErrC.leaf "boom" : ErrC Int)] = [2]
    ∧ AllCCounts [(none : Option (ErrC Int))] = [1]
    ∧ AllC [some (ErrC.leaf "boom" : ErrC Int)]
        = some (ErrC.validationError [ErrC.leaf "boom"]) := by
  exact ⟨rfl, rfl, rfl⟩

/-- C3: `All` (revision A over `Validatable`s, revision D over `error`s)
returns, wrapped in the aggregate error, exactly the failing elements and
only those, in their original relative order: the collected list is the
order-preserving sublist of non-nil results, and in the concrete
fail/pass/fail/pass/fail pattern the result holds the three failures in
positions 1,3,5 order. -/
theorem all_collects_all_failures_in_order :
    (∀ vs : List (Option ErrA),
      AllA vs = if (collectErrs vs).isEmpty then none
        else some (ErrA.validationError (collectErrs vs)))
    ∧ (∀ vs : List (Option ErrA), collectErrs vs = vs.filterMap id)
    ∧ (∀ e1 e3 e5 : ErrA,
        AllA [some e1, none, some e3, none, some e5]
          = some (ErrA.validationError [e1, e3, e5]))
    ∧ (∀ vs : List (Option ErrD),
        AllD vs = if (collectErrs vs).isEmpty then none
          else some (ErrD.errMultiple (collectErrs vs)))
    ∧ (∀ d1 d3 d5 : ErrD,
        AllD [some d1, none, some d3, none, some d5]
          = some (ErrD.errMultiple [d1, d3, d5])) := by
  refine ⟨AllA_eq, collectErrs_eq_filterMap, ?_, AllD_eq, ?_⟩
  · intro e1 e3 e5; rfl
  · intro d1 d3 d5; rfl

/-- C8: rendering a failure value is pure and idempotent: a call of
`ValidationError.Error` (revision A) or `errSingle.Error` returns its string
and leaves the receiver's fields untouched, and a second call on the
returned-unchanged receiver yields the identical string. -/
theorem render_is_pure_and_idempotent :
    ∀ (errs : List ErrA) (e : ErrSingle Int),
      (ValidationErrorErrorCall errs).2 = errs
      ∧ (ValidationErrorErrorCall ((ValidationErrorErrorCall errs).2)).1
          = (ValidationErrorErrorCall errs).1
      ∧ (errSingleErrorCall e).2 = e
      ∧ (errSingleErrorCall ((errSingleErrorCall e).2)).1
          = (errSingleErrorCall e).1 := by
  intro errs e
  exact ⟨rfl, rfl, rfl, rfl⟩

/-- C9: when one element of an `All` call is a composite whose own result is a
`ValidationError` (even a 1-element one), the parent's `ValidationError`
contains that whole child aggregate as a single node at the child's position
among the failures — never flattened — and the child node's tree depth is one
more than the wrapped failure's depth, so depth grows with nesting depth. -/
theorem child_violation_set_nested_not_flattened :
    ∀ (pre post : List (Option ErrA)) (ce : ErrA),
      AllA (pre ++ some (ErrA.validationError [ce]) :: post)
        = some (ErrA.validationError
            (collectErrs pre ++ ErrA.validationError [ce] :: collectErrs post))
      ∧ depthA (ErrA.validationError [ce]) = depthA ce + 1 := by
  intro pre post ce
  constructor
  · rw [AllA_eq, collectErrs_append]
    have h : collectErrs (some (ErrA.validationError [ce]) :: post)
        = ErrA.validationError [ce] :: collectErrs post := rfl
    rw [h]
    simp
  · simp [depthA, depthListA]

/-- C4: the multi-violation container is only built from at least one failure:
`All` (revision A) returns nil exactly when no element failed, never returns
an empty `ValidationError`, and with zero checks or all-passing checks the
result is the nil sentinel. -/
theorem validation_error_only_when_failures :
    (∀ vs : List (Option ErrA),
      (AllA vs = none ↔ collectErrs vs = [])
      ∧ AllA vs ≠ some (ErrA.validationError []))
    ∧ AllA [] = none
    ∧ (∀ n : Nat, AllA (List.replicate n none) = none) := by
  have key : ∀ vs : List (Option ErrA),
      (AllA vs = none ↔ collectErrs vs = [])
      ∧ AllA vs ≠ some (ErrA.validationError []) := by
    intro vs
    unfold AllA
    cases hc : collectErrs vs with
    | nil => simp
    | cons e es => simp
  refine ⟨key, rfl, ?_⟩
  intro n
  have h : collectErrs (List.replicate n (none : Option ErrA)) = [] := by
    induction n with
    | zero => rfl
    | succ k ih => simpa [List.replicate, collectErrs] using ih
  exact (key _).1.mpr h

/-- Concrete instance of C4's theorem: one failing check never yields an empty
container, and two passing checks yield nil. -/
theorem validation_error_only_when_failures_check :
    AllA [some (ErrA.leaf "x")] ≠ some (ErrA.validationError [])
    ∧ AllA (List.replicate 2 (none : Option ErrA)) = none :=
  ⟨(validation_error_only_when_failures.1 [some (ErrA.leaf "x")]).2,
    validation_error_only_when_failures.2.2 2⟩

/-- C5: both `OneOf` variants succeed exactly when the value equals some
member of the allowed set (the scan accepting at the first match); on failure
the error retains the allowed set verbatim (duplicates and order included),
and an empty allowed set always fails. -/
theorem oneOf_succeeds_iff_member :
    ∀ {T : Type} [DecidableEq T] (name : String) (v : T) (S : List T),
      (OneOfB name v S = none ↔ v ∈ S)
      ∧ (OneOfB name v S = none ∨ OneOfB name v S = some ⟨name, v, S⟩)
      ∧ OneOfB name v [] = some ⟨name, v, []⟩
      ∧ oneOfFound v (v :: S) = true
      ∧ (OneOfAValidate ⟨name, v, S⟩ = none ↔ v ∈ S)
      ∧ (OneOfAValidate ⟨name, v, S⟩ = none
          ∨ OneOfAValidate ⟨name, v, S⟩ = some ⟨name, v, S⟩) := by
  intro T instT name v S
  have hb : ∀ S' : List T,
      ((if oneOfFound v S' then (none : Option (ErrOneOf T))
        else some ⟨name, v, S'⟩) = none) ↔ v ∈ S' := by
    intro S'
    rw [← oneOfFound_iff_mem v S']
    by_cases h : oneOfFound v S' <;> simp [h]
  have ha : ∀ S' : List T,
      ((if oneOfFound v S' then (none : Option (OneOfA T))
        else some ⟨name, v, S'⟩) = none) ↔ v ∈ S' := by
    intro S'
    rw [← oneOfFound_iff_mem v S']
    by_cases h : oneOfFound v S' <;> simp [h]
  refine ⟨hb S, ?_, ?_, ?_, ha S, ?_⟩
  · unfold OneOfB
    by_cases h : oneOfFound v S
    · left; simp [h]
    · right; simp [h]
  · simp [OneOfB, oneOfFound]
  · simp [oneOfFound]
  · unfold OneOfAValidate
    by_cases h : oneOfFound v S
    · left; simp [h]
    · right; simp [h]

/-- Concrete instance of C5's theorem: membership succeeds, a missing value
fails with the duplicate-preserving set verbatim, and the empty set fails. -/
theorem oneOf_succeeds_iff_member_check :
    OneOfB "f" (3 : Int) [1, 3] = none
    ∧ OneOfB "f" (2 : Int) [7, 7] = some ⟨"f", 2, [7, 7]⟩
    ∧ OneOfB "f" (2 : Int) [] = some ⟨"f", 2, []⟩ := by
  refine ⟨(oneOf_succeeds_iff_member "f" (3 : Int) [1, 3]).1.mpr (by decide),
    ?_, (oneOf_succeeds_iff_member "f" (2 : Int) []).2.2.1⟩
  have h := oneOf_succeeds_iff_member "f" (2 : Int) [7, 7]
  rcases h.2.1 with hn | hs
  · exact absurd (h.1.mp hn) (by decide)
  · exact hs

/-- C6: `Before` succeeds exactly when the value is strictly before the
reference and `After` exactly when it is strictly after; at equality both
return a violation. -/
theorem before_after_strict :
    ∀ (name : String) (t r : Int),
      (BeforeB name t r = none ↔ t < r)
      ∧ (AfterB name t r = none ↔ r < t)
      ∧ BeforeB name t t = some ⟨name, t, t, "is not before"⟩
      ∧ AfterB name t t = some ⟨name, t, t, "is not after"⟩ := by
  intro name t r
  refine ⟨?_, ?_, ?_, ?_⟩
  · unfold BeforeB
    by_cases h : t < r <;> simp [h]
  · unfold AfterB
    by_cases h : r < t <;> simp [h]
  · simp [BeforeB]
  · simp [AfterB]

/-- Concrete instance of C6's theorem: strict order passes, equality fails
both checks. -/
theorem before_after_strict_check :
    BeforeB "vacation" 1 2 = none
    ∧ AfterB "birthday" 3 2 = none
    ∧ BeforeB "vacation" 2 2 = some ⟨"vacation", 2, 2, "is not before"⟩
    ∧ AfterB "birthday" 2 2 = some ⟨"birthday", 2, 2, "is not after"⟩ :=
  ⟨(before_after_strict "vacation" 1 2).1.mpr (by decide),
    (before_after_strict "birthday" 3 2).2.1.mpr (by decide),
    (before_after_strict "vacation" 2 2).2.2.1,
    (before_after_strict "birthday" 2 2).2.2.2⟩

/-- C7: `MinMax.Validate` is by definition the aggregator applied to the Max
check followed by the Min check; both sub-checks are always evaluated (count
at least 1 each, 2 on failure under revision C's aggregator), each can fail
independently, and when both fail the nested `ValidationError` reports the
max violation before the min violation. -/
theorem minMax_is_aggregate_max_then_min :
    ∀ {T : Type} [LinearOrder T] (v lo hi : T),
      MinMaxValidateC v lo hi = AllC [MaxValidateC v hi, MinValidateC v lo]
      ∧ AllCCounts [MaxValidateC v hi, MinValidateC v lo]
          = [if hi < v then 2 else 1, if v < lo then 2 else 1]
      ∧ MinMaxValidateC v lo hi
          = if hi < v then
              if v < lo then
                some (ErrC.validationError [ErrC.maxErr v hi, ErrC.minErr v lo])
              else some (ErrC.validationError [ErrC.maxErr v hi])
            else
              if v < lo then some (ErrC.validationError [ErrC.minErr v lo])
              else none := by
  intro T instT v lo hi
  refine ⟨rfl, ?_, ?_⟩
  · by_cases h1 : hi < v <;> by_cases h2 : v < lo <;>
      simp [AllCCounts, AllCLoop, MaxValidateC, MinValidateC, h1, h2, gt_iff_lt]
  · by_cases h1 : hi < v <;> by_cases h2 : v < lo <;>
      simp [MinMaxValidateC, AllC, AllCLoop, MaxValidateC, MinValidateC, h1, h2,
        gt_iff_lt]

/-- Concrete instance of C7's theorem: with min 10 above max 0 and value 5
both sub-checks fail, giving the nested max-then-min pair; with ordinary
bounds 0..10 the value 5 passes. -/
theorem minMax_is_aggregate_max_then_min_check :
    MinMaxValidateC (5 : Int) 10 0
      = some (ErrC.validationError [ErrC.maxErr 5 0, ErrC.minErr 5 10])
    ∧ MinMaxValidateC (5 : Int) 0 10 = none := by
  constructor
  · rw [(minMax_is_aggregate_max_then_min (5 : Int) 10 0).2.2]
    norm_num
  · rw [(minMax_is_aggregate_max_then_min (5 : Int) 0 10).2.2]
    norm_num

/-- C10: revision C's `ValidationError.Error` returns the empty string on an
empty `Errors` slice and the `";"`-joined child messages otherwise, while
that revision's aggregator never constructs an empty `ValidationError`. -/
theorem flat_render_empty_and_join :
    renderC (ErrC.validationError []) = ""
    ∧ (∀ es : List (ErrC Int),
        renderC (ErrC.validationError es)
          = if es.isEmpty then "" else String.intercalate ";" (es.map renderC))
    ∧ renderC (ErrC.validationError [ErrC.minErr (5 : Int) 10, ErrC.leaf "x"])
        = "(5) smaller than min (10);x"
    ∧ (∀ vs : List (Option (ErrC Int)),
        AllC vs ≠ some (ErrC.validationError [])) := by
  refine ⟨?_, ?_, ?_, ?_⟩
  · simp [renderC]
  · intro es
    cases es with
    | nil => simp [renderC]
    | cons e rest => simp [renderC, renderListC_eq_map]
  · simp [renderC, renderListC]
    rfl
  · intro vs
    unfold AllC
    cases h : (AllCLoop vs).1 <;> simp

/-- Concrete instance of C10's theorem: a failing check yields a non-empty
container, and the empty container renders to the empty string. -/
theorem flat_render_empty_and_join_check :
    AllC [some (ErrC.leaf "y" : ErrC Int)] ≠ some (ErrC.validationError [])
    ∧ renderC (ErrC.validationError ([] : List (ErrC Int))) = "" :=
  ⟨flat_render_empty_and_join.2.2.2 [some (ErrC.leaf "y")],
    flat_render_empty_and_join.1⟩
